import Mathlib

/-!
Verification of the canonicalization core of the edx-analytics-pipeline
repository (`edx/analytics/tasks/canonicalization.py`).

The Python source is shallowly embedded: Python `dict`s become association
lists keyed by `String`, Python `int`s become `Int`, exceptions become
`Except PyError`, and external collaborators (the luigi scheduler, boto,
cjson, hashlib, the filesystem) are passed in as explicit inputs.
-/

/-- The Python exception kinds that the embedded code can raise. -/
inductive PyError where
  | ioError
  | valueError
  | indexError
  | zeroDivisionError
  | attributeError
  | keyError
  deriving DecidableEq, Repr

/-! ### Python dict operations on association lists

A Python `dict` is modelled as an association list in insertion order with
unique keys.  `dget` is `d.get(k)` / `k in d`, `dinsert` is `d[k] = v`
(overwrite in place, append if absent), `dsetdefault` is `d.setdefault(k, v)`
restricted to its effect on the dict. -/

def dget {α : Type} : List (String × α) → String → Option α
  | [], _ => none
  | (k', v) :: rest, k => if k' = k then some v else dget rest k

def dinsert {α : Type} : List (String × α) → String → α → List (String × α)
  | [], k, v => [(k, v)]
  | (k', v') :: rest, k, v =>
    if k' = k then (k, v) :: rest else (k', v') :: dinsert rest k v

def dsetdefault {α : Type} : List (String × α) → String → α → List (String × α)
  | [], k, v => [(k, v)]
  | (k', v') :: rest, k, v =>
    if k' = k then (k', v') :: rest else (k', v') :: dsetdefault rest k v

theorem dget_dinsert_self {α : Type} (d : List (String × α)) (k : String) (v : α) :
    dget (dinsert d k v) k = some v := by
  induction d with
  | nil => simp [dinsert, dget]
  | cons hd tl ih =>
    obtain ⟨k', v'⟩ := hd
    by_cases h : k' = k
    · simp [dinsert, h, dget]
    · simp [dinsert, h, dget, ih]

theorem dget_dinsert_ne {α : Type} (d : List (String × α)) (k k' : String) (v : α)
    (h : k' ≠ k) : dget (dinsert d k v) k' = dget d k' := by
  induction d with
  | nil => simp [dinsert, dget, Ne.symm h]
  | cons hd tl ih =>
    obtain ⟨k0, v0⟩ := hd
    by_cases h0 : k0 = k
    · subst h0
      simp [dinsert, dget, Ne.symm h]
    · simp only [dinsert, if_neg h0, dget]
      by_cases h1 : k0 = k'
      · simp [h1]
      · simp [h1, ih]

theorem dget_dsetdefault_ne {α : Type} (d : List (String × α)) (k k' : String) (v : α)
    (h : k' ≠ k) : dget (dsetdefault d k v) k' = dget d k' := by
  induction d with
  | nil => simp [dsetdefault, dget, Ne.symm h]
  | cons hd tl ih =>
    obtain ⟨k0, v0⟩ := hd
    by_cases h0 : k0 = k
    · subst h0
      simp [dsetdefault, dget]
    · simp only [dsetdefault, if_neg h0, dget]
      by_cases h1 : k0 = k'
      · simp [h1]
      · simp [h1, ih]

theorem dget_dsetdefault_none {α : Type} (d : List (String × α)) (k : String) (v : α)
    (h : dget d k = none) : dget (dsetdefault d k v) k = some v := by
  induction d with
  | nil => simp [dsetdefault, dget]
  | cons hd tl ih =>
    obtain ⟨k0, v0⟩ := hd
    by_cases h0 : k0 = k
    · simp [dget, h0] at h
    · simp only [dget, if_neg h0] at h
      simp [dsetdefault, if_neg h0, dget, h0, ih h]

/-! ### Python string helpers (modelled at character-list level)

`pyLines` is iteration over an open text file: the content is cut after every
newline character, each produced line retaining its trailing `'\n'` exactly as
Python file iteration does.  `pySplit` is `str.split(sep)` for a one-character
separator.  `pyIntOfChars` is the Python 2 `int(...)` constructor on strings:
surrounding whitespace is allowed, then an optional sign and a non-empty run
of decimal digits. -/

def pyLinesCore : List Char → List Char → List (List Char)
  | [], acc => if acc = [] then [] else [acc]
  | c :: rest, acc =>
    if c = '\n' then (acc ++ [c]) :: pyLinesCore rest []
    else pyLinesCore rest (acc ++ [c])

def pyLines (s : String) : List (List Char) := pyLinesCore s.data []

def pySplit (sep : Char) : List Char → List (List Char)
  | [] => [[]]
  | c :: rest =>
    if c = sep then [] :: pySplit sep rest
    else
      match pySplit sep rest with
      | [] => [[c]]
      | f :: fs => (c :: f) :: fs

def tabChar : Char := '\t'

def isPySpace (c : Char) : Bool :=
  c == ' ' || c == '\t' || c == '\n' || c == '\x0b' || c == '\x0c' || c == '\r'

def digitsToNatCore : List Char → Nat → Option Nat
  | [], acc => some acc
  | c :: rest, acc =>
    if c.isDigit then digitsToNatCore rest (acc * 10 + (c.toNat - 48)) else none

def pyIntOfChars (cs : List Char) : Option Int :=
  let trimmed := ((cs.dropWhile isPySpace).reverse.dropWhile isPySpace).reverse
  match trimmed with
  | [] => none
  | '-' :: rest =>
    if rest = [] then none else (digitsToNatCore rest 0).map (fun n => -(n : Int))
  | '+' :: rest =>
    if rest = [] then none else (digitsToNatCore rest 0).map (fun n => (n : Int))
  | _ => (digitsToNatCore trimmed 0).map (fun n => (n : Int))

/-! ### The Metadata class (the Ingestion Ledger)

Faithful embedding of `class Metadata` from `canonicalization.py`:
`url_to_batch_id` is the dict, `max_batch_id` the high-water mark. -/

structure Metadata where
  url_to_batch_id : List (String × Int)
  max_batch_id : Int
  deriving DecidableEq, Repr

/-- `Metadata.__init__`: empty dict, `max_batch_id = 0`. -/
def Metadata.empty : Metadata := ⟨[], 0⟩

/-- `Metadata.register_url(batch_id, url)`. -/
def Metadata.register_url (meta : Metadata) (batch_id : Int) (url : String) : Metadata :=
  ⟨dinsert meta.url_to_batch_id url batch_id,
   if batch_id > meta.max_batch_id then batch_id else meta.max_batch_id⟩

/-- `Metadata.includes_url(url)`. -/
def Metadata.includes_url (meta : Metadata) (url : String) : Bool :=
  (dget meta.url_to_batch_id url).isSome

/-- `Metadata.get_batch_id_for_url(url)`: dict subscript, `KeyError` when
absent.  Note this accessor is never called anywhere in the source. -/
def Metadata.get_batch_id_for_url (meta : Metadata) (url : String) : Except PyError Int :=
  match dget meta.url_to_batch_id url with
  | some b => Except.ok b
  | none => Except.error PyError.keyError

/-- One iteration of the `Metadata.from_file` loop: `line.split('\t')`, then
`int(split_line[0])` (a `ValueError` if the field is not an integer), then
`split_line[1]` (an `IndexError` if there was no tab).  Note the url field is
taken verbatim, including the trailing newline of the line. -/
def Metadata.parseLine (meta : Metadata) (line : List Char) : Except PyError Metadata :=
  match pySplit tabChar line with
  | [] => Except.error PyError.indexError
  | field0 :: rest =>
    match pyIntOfChars field0 with
    | none => Except.error PyError.valueError
    | some batch_id =>
      match rest with
      | [] => Except.error PyError.indexError
      | url :: _ => Except.ok (meta.register_url batch_id ⟨url⟩)

def Metadata.fromLines : Metadata → List (List Char) → Except PyError Metadata
  | meta, [] => Except.ok meta
  | meta, line :: rest =>
    match Metadata.parseLine meta line with
    | Except.error e => Except.error e
    | Except.ok meta' => Metadata.fromLines meta' rest

/-- `Metadata.from_file(metadata_file)`: iterate the lines of the file,
registering `(int(field0), field1)` per line; any malformed line raises. -/
def Metadata.from_file (content : String) : Except PyError Metadata :=
  Metadata.fromLines Metadata.empty (pyLines content)

/-- `Metadata.to_file(output_file)`: writes `'{0}\t{1}\n'.format(batch_id, url)`
for every entry.  The model returns the full text written to the stream. -/
def Metadata.to_file (meta : Metadata) : String :=
  meta.url_to_batch_id.foldl (fun acc p => acc ++ toString p.2 ++ "\t" ++ p.1 ++ "\n") ""

/-! ### The CanonicalizationTask: state, loading, planning, run

The luigi scheduler, `datetime.utcnow`, and target I/O are external: they are
passed in as values (the opened metadata stream as `Except PyError String`,
the run timestamp as a `String`, the job outcome as `Except PyError Unit`).

Python string comparison (used by `sorted(..., key=attrgetter('url'))`) is
lexicographic on code points; `sorted` is stable, and since the sort keys are
the list elements themselves, insertion sort w.r.t. the same order produces
the identical list. -/

def pyCharListLe : List Char → List Char → Bool
  | [], _ => true
  | _ :: _, [] => false
  | a :: as, b :: bs =>
    if a.toNat < b.toNat then true
    else if b.toNat < a.toNat then false
    else pyCharListLe as bs

def pyStrLe (a b : String) : Bool := pyCharListLe a.data b.data

/-- `sorted(...)` on a list of url strings. -/
def pySorted (l : List String) : List String :=
  List.insertionSort (fun a b => pyStrLe a b = true) l

/-- The attributes that `CanonicalizationTask.initialize` stores on `self`.
`path_to_batch` is an `Option` because Python attributes exist only once
assigned: no method in the source ever assigns `self.path_to_batch`, so the
state constructed by the task leaves it `none`, and reading it raises
`AttributeError`. -/
structure TaskState where
  metadata : Metadata
  requirements : List String
  current_time : String
  path_to_batch : Option (List (String × Int))
  deriving Repr

/-- The `try: ... Metadata.from_file ... except Exception: Metadata()` block of
`CanonicalizationTask.initialize`: any failure opening or parsing the metadata
file yields a fresh empty `Metadata`. -/
def CanonicalizationTask.initLoad (openResult : Except PyError String) : Metadata :=
  match openResult with
  | Except.error _ => Metadata.empty
  | Except.ok content =>
    match Metadata.from_file content with
    | Except.error _ => Metadata.empty
    | Except.ok meta => meta

/-- `CanonicalizationTask._get_requirements`: the flattened enumeration of all
sources (`enumerated`), keeping only urls not already in the ledger.  Each
`UncheckedExternalURL(url)` is represented by its url. -/
def CanonicalizationTask.get_requirements (meta : Metadata) (enumerated : List String) :
    List String :=
  enumerated.filter (fun url => !(meta.includes_url url))

/-- Python 2 `/` on integers: floor division, `ZeroDivisionError` on zero. -/
def pyDiv (a b : Int) : Except PyError Int :=
  if b = 0 then Except.error PyError.zeroDivisionError else Except.ok (Int.fdiv a b)

/-- The `for requirement in sorted(...)` loop of `initialize`:
`batch_id = min_batch_id + (len(self.requirements) / self.files_per_batch)`,
then `self.metadata.register_url(batch_id, path)`, then append. -/
def planLoop (min_batch_id files_per_batch : Int) :
    Metadata → List String → List String → Except PyError (Metadata × List String)
  | meta, reqs, [] => Except.ok (meta, reqs)
  | meta, reqs, path :: rest =>
    match pyDiv (reqs.length : Int) files_per_batch with
    | Except.error e => Except.error e
    | Except.ok q =>
      planLoop min_batch_id files_per_batch
        (meta.register_url (min_batch_id + q) path) (reqs ++ [path]) rest

/-- `CanonicalizationTask.initialize` after the metadata load: compute
`min_batch_id = max_batch_id + 1`, sort the new requirements by url, and run
the planning loop.  The resulting state never assigns `path_to_batch`. -/
def CanonicalizationTask.taskInit (current_time : String) (meta : Metadata)
    (enumerated : List String) (files_per_batch : Int) : Except PyError TaskState :=
  let min_batch_id := meta.max_batch_id + 1
  let sortedReqs := pySorted (CanonicalizationTask.get_requirements meta enumerated)
  match planLoop min_batch_id files_per_batch meta [] sortedReqs with
  | Except.error e => Except.error e
  | Except.ok (meta', reqs) => Except.ok ⟨meta', reqs, current_time, none⟩

/-- `CanonicalizationTask.get_batch_id(file_path)`:
`return self.path_to_batch[file_path]`.  Reading the never-assigned attribute
raises `AttributeError`; were it assigned, a missing key would raise
`KeyError`. -/
def CanonicalizationTask.get_batch_id (st : TaskState) (file_path : String) :
    Except PyError Int :=
  match st.path_to_batch with
  | none => Except.error PyError.attributeError
  | some tbl =>
    match dget tbl file_path with
    | some b => Except.ok b
    | none => Except.error PyError.keyError

/-- `CanonicalizationTask.run`: `super(...).run()` (the map/reduce job, an
external collaborator whose outcome is `jobResult`), and only after it returns
normally, one write of the serialized ledger to the metadata target.  The
second component lists the complete texts written to the metadata target. -/
def CanonicalizationTask.run (jobResult : Except PyError Unit) (st : TaskState) :
    Except PyError Unit × List String :=
  match jobResult with
  | Except.error e => (Except.error e, [])
  | Except.ok _ => (Except.ok (), [st.metadata.to_file])

/-! ### Closed form of the planning loop -/

/-- The assignment the planning loop performs when started with `k` paths
already appended: position `k + i` of the combined walk gets batch id
`min_batch_id + (k + i) // files_per_batch`. -/
def assignFrom (min_batch_id files_per_batch : Int) : Nat → List String → List (String × Int)
  | _, [] => []
  | k, p :: rest =>
    (p, min_batch_id + Int.fdiv (k : Int) files_per_batch) ::
      assignFrom min_batch_id files_per_batch (k + 1) rest

/-- Register a list of `(path, batch_id)` assignments in order. -/
def registerAll (meta : Metadata) (l : List (String × Int)) : Metadata :=
  l.foldl (fun m pb => m.register_url pb.2 pb.1) meta

theorem planLoop_eq (min_batch_id c : Int) (hc : c ≠ 0) :
    ∀ (l : List String) (meta : Metadata) (reqs : List String),
      planLoop min_batch_id c meta reqs l =
        Except.ok (registerAll meta (assignFrom min_batch_id c reqs.length l), reqs ++ l) := by
  intro l
  induction l with
  | nil => intro meta reqs; simp [planLoop, registerAll, assignFrom]
  | cons p rest ih =>
    intro meta reqs
    simp only [planLoop, pyDiv, if_neg hc]
    rw [ih]
    simp [registerAll, assignFrom, List.append_assoc]

theorem assignFrom_keys (min_batch_id c : Int) :
    ∀ (l : List String) (k : Nat),
      (assignFrom min_batch_id c k l).map Prod.fst = l := by
  intro l
  induction l with
  | nil => intro k; simp [assignFrom]
  | cons p rest ih => intro k; simp [assignFrom, ih]

theorem assignFrom_getD_mem (min_batch_id c : Int) :
    ∀ (l : List String) (k i : Nat), i < l.length →
      (l.getD i "", min_batch_id + Int.fdiv ((k + i : Nat) : Int) c) ∈
        assignFrom min_batch_id c k l := by
  intro l
  induction l with
  | nil => intro k i hi; simp at hi
  | cons p rest ih =>
    intro k i hi
    cases i with
    | zero => simp [assignFrom]
    | succ j =>
      have hj : j < rest.length := by simpa using hi
      have := ih (k + 1) j hj
      have harith : k + 1 + j = k + (j + 1) := by omega
      simp only [assignFrom, List.getD_cons_succ]
      right
      rw [← harith]
      exact this

theorem dget_registerAll_not_mem (l : List (String × Int)) (u : String)
    (h : u ∉ l.map Prod.fst) :
    ∀ meta, dget (registerAll meta l).url_to_batch_id u = dget meta.url_to_batch_id u := by
  induction l with
  | nil => intro meta; rfl
  | cons pq tail ih =>
    intro meta
    obtain ⟨p, q⟩ := pq
    simp only [List.map_cons, List.mem_cons, not_or] at h
    simp only [registerAll, List.foldl_cons]
    have := ih h.2 (meta.register_url q p)
    rw [registerAll] at this
    rw [this]
    exact dget_dinsert_ne _ _ _ _ h.1

theorem dget_registerAll_mem (l : List (String × Int)) (hnd : (l.map Prod.fst).Nodup)
    (u : String) (b : Int) (hmem : (u, b) ∈ l) :
    ∀ meta, dget (registerAll meta l).url_to_batch_id u = some b := by
  induction l with
  | nil => simp at hmem
  | cons pq tail ih =>
    intro meta
    obtain ⟨p, q⟩ := pq
    simp only [List.map_cons, List.nodup_cons] at hnd
    simp only [registerAll, List.foldl_cons]
    rcases List.mem_cons.mp hmem with hhead | htail
    · cases hhead
      have hnot := dget_registerAll_not_mem tail u hnd.1 (meta.register_url b u)
      rw [registerAll] at hnot
      rw [hnot]
      exact dget_dinsert_self _ _ _
    · exact ih hnd.2 htail (meta.register_url q p)

/-! ### Claims C1, C3, C4, C5, C8 -/

/-- Claim C1 (code bug).  Round trip at the concrete ledger state
`{"a" ↦ 1}, max_batch_id = 1`: `to_file` writes `"1\ta\n"`, but `from_file`
keeps the url field of each line verbatim — including the trailing newline —
so the reloaded ledger maps `"a\n"`, not `"a"`; the original path is no longer
present.  `max_batch_id` does survive. -/
theorem c1_roundtrip_newline_bug :
    Metadata.to_file ⟨[("a", 1)], 1⟩ = "1\ta\n" ∧
    Metadata.from_file (Metadata.to_file ⟨[("a", 1)], 1⟩) = Except.ok ⟨[("a\n", 1)], 1⟩ ∧
    dget (⟨[("a", 1)], 1⟩ : Metadata).url_to_batch_id "a" = some 1 ∧
    dget (⟨[("a\n", 1)], 1⟩ : Metadata).url_to_batch_id "a" = none ∧
    Metadata.includes_url ⟨[("a\n", 1)], 1⟩ "a" = false :=
  ⟨rfl, rfl, rfl, rfl, rfl⟩

/-- Claim C3 (confirmed).  For capacity ≥ 1 and a duplicate-free enumeration,
`initialize` succeeds, its requirement list is the new paths sorted
lexicographically, and the path at sorted position `i` is registered under
batch id `max_batch_id + 1 + ⌊i / capacity⌋` (`Int.fdiv` is floor division).
Determinism across repeated computations is immediate: the embedding is a
pure function of the same inputs. -/
theorem c3_deterministic_assignment (current_time : String) (meta : Metadata)
    (enumerated : List String) (c : Int) (hc : 1 ≤ c) (hnd : enumerated.Nodup) :
    ∃ st, CanonicalizationTask.taskInit current_time meta enumerated c = Except.ok st ∧
      st.requirements = pySorted (CanonicalizationTask.get_requirements meta enumerated) ∧
      ∀ i, i < st.requirements.length →
        dget st.metadata.url_to_batch_id (st.requirements.getD i "") =
          some (meta.max_batch_id + 1 + Int.fdiv (i : Int) c) := by
  have hc0 : c ≠ 0 := by omega
  have hplan := planLoop_eq (meta.max_batch_id + 1) c hc0
    (pySorted (CanonicalizationTask.get_requirements meta enumerated)) meta []
  refine ⟨⟨registerAll meta (assignFrom (meta.max_batch_id + 1) c 0
      (pySorted (CanonicalizationTask.get_requirements meta enumerated))),
    pySorted (CanonicalizationTask.get_requirements meta enumerated), current_time, none⟩,
    ?_, rfl, ?_⟩
  · simp only [CanonicalizationTask.taskInit]
    rw [hplan]
    simp
  · intro i hi
    have hsortnd : (pySorted (CanonicalizationTask.get_requirements meta enumerated)).Nodup := by
      have hperm := List.perm_insertionSort (fun a b => pyStrLe a b = true)
        (CanonicalizationTask.get_requirements meta enumerated)
      exact (hperm.nodup_iff).mpr (List.Nodup.filter _ hnd)
    have hkeys := assignFrom_keys (meta.max_batch_id + 1) c
      (pySorted (CanonicalizationTask.get_requirements meta enumerated)) 0
    have hmem := assignFrom_getD_mem (meta.max_batch_id + 1) c
      (pySorted (CanonicalizationTask.get_requirements meta enumerated)) 0 i hi
    simp only [Nat.zero_add] at hmem
    have hknd : ((assignFrom (meta.max_batch_id + 1) c 0
        (pySorted (CanonicalizationTask.get_requirements meta enumerated))).map
          Prod.fst).Nodup := by
      rw [hkeys]; exact hsortnd
    exact dget_registerAll_mem _ hknd _ _ hmem meta

/-- Witness for C3 at enumeration `["b", "a", "c"]`, empty ledger, capacity 2:
sorted order is `["a", "b", "c"]` with batch ids 1, 1, 2. -/
theorem c3_deterministic_assignment_witness :
    (1 : Int) ≤ 2 ∧ (["b", "a", "c"] : List String).Nodup ∧
    ∃ st, CanonicalizationTask.taskInit "T" Metadata.empty ["b", "a", "c"] 2 = Except.ok st ∧
      st.requirements = pySorted (CanonicalizationTask.get_requirements Metadata.empty
        ["b", "a", "c"]) ∧
      ∀ i, i < st.requirements.length →
        dget st.metadata.url_to_batch_id (st.requirements.getD i "") =
          some (Metadata.empty.max_batch_id + 1 + Int.fdiv (i : Int) 2) :=
  ⟨by decide, by decide,
    c3_deterministic_assignment "T" Metadata.empty ["b", "a", "c"] 2 (by decide) (by decide)⟩

/-- Claim C4 (confirmed).  `run` calls the map/reduce job first; if the job
raises, the exception propagates and nothing is ever written to the metadata
target, while on success exactly one write of the serialized ledger occurs. -/
theorem c4_ledger_persist_after_success (jobResult : Except PyError Unit) (st : TaskState) :
    (∀ e, jobResult = Except.error e →
      CanonicalizationTask.run jobResult st = (Except.error e, [])) ∧
    (jobResult = Except.ok () →
      CanonicalizationTask.run jobResult st = (Except.ok (), [st.metadata.to_file])) := by
  constructor
  · intro e he; subst he; rfl
  · intro he; subst he; rfl

/-- Witness for C4 at a concrete state, for both a failing and a succeeding
job. -/
theorem c4_ledger_persist_after_success_witness :
    CanonicalizationTask.run (Except.error PyError.ioError) ⟨Metadata.empty, [], "T", none⟩ =
      (Except.error PyError.ioError, []) ∧
    CanonicalizationTask.run (Except.ok ()) ⟨Metadata.empty, [], "T", none⟩ =
      (Except.ok (), [Metadata.to_file Metadata.empty]) :=
  ⟨(c4_ledger_persist_after_success _ _).1 PyError.ioError rfl,
   (c4_ledger_persist_after_success _ _).2 rfl⟩

/-- Claim C5 (confirmed).  Whenever opening the metadata target fails, or its
content makes `Metadata.from_file` raise, `initialize` proceeds with a fresh
empty ledger; `initLoad` is a total function into `Metadata`, so no exception
raised during loading propagates. -/
theorem c5_load_robustness (openResult : Except PyError String)
    (h : (∃ e, openResult = Except.error e) ∨
      (∃ content e, openResult = Except.ok content ∧
        Metadata.from_file content = Except.error e)) :
    CanonicalizationTask.initLoad openResult = Metadata.empty ∧
    (CanonicalizationTask.initLoad openResult).url_to_batch_id = [] ∧
    (CanonicalizationTask.initLoad openResult).max_batch_id = 0 := by
  have hempty : CanonicalizationTask.initLoad openResult = Metadata.empty := by
    rcases h with ⟨e, he⟩ | ⟨content, e, hcontent, he⟩
    · subst he; rfl
    · subst hcontent
      simp [CanonicalizationTask.initLoad, he]
  exact ⟨hempty, by rw [hempty]; rfl, by rw [hempty]; rfl⟩

/-- Witness for C5: an unreadable metadata target. -/
theorem c5_load_robustness_witness :
    CanonicalizationTask.initLoad (Except.error PyError.ioError) = Metadata.empty ∧
    (CanonicalizationTask.initLoad (Except.error PyError.ioError)).url_to_batch_id = [] ∧
    (CanonicalizationTask.initLoad (Except.error PyError.ioError)).max_batch_id = 0 :=
  c5_load_robustness _ (Or.inl ⟨PyError.ioError, rfl⟩)

/-- Claim C8 counterexample.  With `files_per_batch = 0` and a source set that
yields no new files, `initialize` raises no error at all: the run proceeds as
a no-op instead of failing with a fatal configuration error, refuting the
claim's "for every source set". -/
theorem c8_counterexample :
    CanonicalizationTask.taskInit "T" Metadata.empty [] 0 =
      Except.ok ⟨Metadata.empty, [], "T", none⟩ := rfl

/-- Claim C8 as amended.  With capacity 0 and at least one newly discovered
file, planning fails at the very first file with `ZeroDivisionError` — the
division happens before the first `register_url`, so no assignment is ever
registered and no map/reduce work or output happens — but the failure arises
during planning, not as an upfront configuration check, and a run with no new
files does not fail at all. -/
theorem c8_amended (current_time : String) (meta : Metadata) (enumerated : List String)
    (hne : CanonicalizationTask.get_requirements meta enumerated ≠ []) :
    CanonicalizationTask.taskInit current_time meta enumerated 0 =
      Except.error PyError.zeroDivisionError := by
  have hperm := List.perm_insertionSort (fun a b => pyStrLe a b = true)
    (CanonicalizationTask.get_requirements meta enumerated)
  have hs : pySorted (CanonicalizationTask.get_requirements meta enumerated) ≠ [] := by
    intro h
    apply hne
    have hlen := hperm.length_eq
    rw [pySorted] at h
    rw [h] at hlen
    exact List.length_eq_zero.mp hlen.symm
  obtain ⟨p, rest, hcons⟩ := List.exists_cons_of_ne_nil hs
  simp only [CanonicalizationTask.taskInit]
  rw [hcons]
  simp [planLoop, pyDiv]

/-- Witness for C8's amended claim: one new file, capacity 0. -/
theorem c8_amended_witness :
    CanonicalizationTask.get_requirements Metadata.empty ["f"] ≠ [] ∧
    CanonicalizationTask.taskInit "T" Metadata.empty ["f"] 0 =
      Except.error PyError.zeroDivisionError :=
  ⟨by decide, c8_amended "T" Metadata.empty ["f"] (by decide)⟩

/-! ### Claim C9: register_url invariant -/

/-- A finite sequence of `register_url(batch_id, url)` calls. -/
def applyOps (meta : Metadata) (ops : List (Int × String)) : Metadata :=
  ops.foldl (fun m op => m.register_url op.1 op.2) meta

theorem register_url_max_le (meta : Metadata) (b : Int) (u : String) :
    meta.max_batch_id ≤ (meta.register_url b u).max_batch_id ∧
    b ≤ (meta.register_url b u).max_batch_id := by
  simp only [Metadata.register_url]
  split <;> constructor <;> omega

theorem applyOps_max_mono : ∀ (ops : List (Int × String)) (meta : Metadata),
    meta.max_batch_id ≤ (applyOps meta ops).max_batch_id := by
  intro ops
  induction ops with
  | nil => intro meta; simp [applyOps]
  | cons op rest ih =>
    intro meta
    calc meta.max_batch_id ≤ (meta.register_url op.1 op.2).max_batch_id :=
          (register_url_max_le meta op.1 op.2).1
      _ ≤ (applyOps (meta.register_url op.1 op.2) rest).max_batch_id := ih _

theorem applyOps_mem_le : ∀ (ops : List (Int × String)) (meta : Metadata),
    ∀ op ∈ ops, op.1 ≤ (applyOps meta ops).max_batch_id := by
  intro ops
  induction ops with
  | nil => intro meta op hop; simp at hop
  | cons op0 rest ih =>
    intro meta op hop
    rcases List.mem_cons.mp hop with rfl | htail
    · calc op.1 ≤ (meta.register_url op.1 op.2).max_batch_id :=
            (register_url_max_le meta op.1 op.2).2
        _ ≤ (applyOps (meta.register_url op.1 op.2) rest).max_batch_id :=
            applyOps_max_mono rest _
    · exact ih (meta.register_url op0.1 op0.2) op htail

theorem applyOps_max_cases : ∀ (ops : List (Int × String)) (meta : Metadata),
    (applyOps meta ops).max_batch_id = meta.max_batch_id ∨
    ∃ op ∈ ops, op.1 = (applyOps meta ops).max_batch_id := by
  intro ops
  induction ops with
  | nil => intro meta; left; rfl
  | cons op0 rest ih =>
    intro meta
    rcases ih (meta.register_url op0.1 op0.2) with h | ⟨op, hop, heq⟩
    · simp only [applyOps, List.foldl_cons] at *
      rw [h]
      simp only [Metadata.register_url]
      split
      · right; exact ⟨op0, List.mem_cons_self _ _, rfl⟩
      · left; rfl
    · right
      exact ⟨op, List.mem_cons_of_mem _ hop, heq⟩

theorem applyOps_mapped_le : ∀ (ops : List (Int × String)) (meta : Metadata),
    (∀ u b, dget meta.url_to_batch_id u = some b → b ≤ meta.max_batch_id) →
    ∀ u b, dget (applyOps meta ops).url_to_batch_id u = some b →
      b ≤ (applyOps meta ops).max_batch_id := by
  intro ops
  induction ops with
  | nil => intro meta hinv; exact hinv
  | cons op0 rest ih =>
    intro meta hinv
    apply ih
    intro u b hget
    simp only [Metadata.register_url] at hget
    by_cases hu : u = op0.2
    · subst hu
      rw [dget_dinsert_self] at hget
      cases hget
      exact (register_url_max_le meta op0.1 op0.2).2
    · rw [dget_dinsert_ne _ _ _ _ hu] at hget
      calc b ≤ meta.max_batch_id := hinv u b hget
        _ ≤ (meta.register_url op0.1 op0.2).max_batch_id :=
            (register_url_max_le meta op0.1 op0.2).1

/-- Claim C9 (confirmed).  Starting from `Metadata()`, after any sequence of
`register_url` calls with non-negative batch ids: `max_batch_id` is 0 when no
registration happened, otherwise it is attained by some registered id and
dominates every registered id; and every path in the mapping maps to a batch
id at most `max_batch_id`. -/
theorem c9_ledger_invariant (ops : List (Int × String))
    (hpos : ∀ op ∈ ops, (0 : Int) ≤ op.1) :
    (ops = [] → (applyOps Metadata.empty ops).max_batch_id = 0) ∧
    (ops ≠ [] → ∃ op ∈ ops, op.1 = (applyOps Metadata.empty ops).max_batch_id) ∧
    (∀ op ∈ ops, op.1 ≤ (applyOps Metadata.empty ops).max_batch_id) ∧
    (∀ u b, dget (applyOps Metadata.empty ops).url_to_batch_id u = some b →
      b ≤ (applyOps Metadata.empty ops).max_batch_id) := by
  refine ⟨?_, ?_, applyOps_mem_le ops Metadata.empty, ?_⟩
  · intro h; subst h; rfl
  · intro hne
    rcases applyOps_max_cases ops Metadata.empty with h0 | hex
    · obtain ⟨op0, rest, rfl⟩ := List.exists_cons_of_ne_nil hne
      have h1 : op0.1 ≤ (applyOps Metadata.empty (op0 :: rest)).max_batch_id :=
        applyOps_mem_le _ _ op0 (List.mem_cons_self _ _)
      have h2 : (0 : Int) ≤ op0.1 := hpos op0 (List.mem_cons_self _ _)
      refine ⟨op0, List.mem_cons_self _ _, ?_⟩
      have : (Metadata.empty).max_batch_id = (0 : Int) := rfl
      omega
    · exact hex
  · apply applyOps_mapped_le
    intro u b hget
    simp [Metadata.empty, dget] at hget

/-- Witness for C9 with the registration sequence
`register_url(1, "a"); register_url(2, "b"); register_url(1, "c")`. -/
theorem c9_ledger_invariant_witness :
    (∀ op ∈ ([((1 : Int), "a"), (2, "b"), (1, "c")] : List (Int × String)), (0 : Int) ≤ op.1) ∧
    ((([((1 : Int), "a"), (2, "b"), (1, "c")] : List (Int × String)) = [] →
      (applyOps Metadata.empty [((1 : Int), "a"), (2, "b"), (1, "c")]).max_batch_id = 0) ∧
    (([((1 : Int), "a"), (2, "b"), (1, "c")] : List (Int × String)) ≠ [] →
      ∃ op ∈ ([((1 : Int), "a"), (2, "b"), (1, "c")] : List (Int × String)),
        op.1 = (applyOps Metadata.empty [((1 : Int), "a"), (2, "b"), (1, "c")]).max_batch_id) ∧
    (∀ op ∈ ([((1 : Int), "a"), (2, "b"), (1, "c")] : List (Int × String)),
      op.1 ≤ (applyOps Metadata.empty [((1 : Int), "a"), (2, "b"), (1, "c")]).max_batch_id) ∧
    (∀ u b, dget (applyOps Metadata.empty [((1 : Int), "a"), (2, "b"), (1, "c")]).url_to_batch_id
        u = some b →
      b ≤ (applyOps Metadata.empty [((1 : Int), "a"), (2, "b"), (1, "c")]).max_batch_id)) :=
  ⟨by decide, c9_ledger_invariant [((1 : Int), "a"), (2, "b"), (1, "c")] (by decide)⟩

/-! ### Claim C10: from_file is strict on malformed lines -/

theorem pySplit_ne_nil (sep : Char) : ∀ l : List Char, pySplit sep l ≠ [] := by
  intro l
  cases l with
  | nil => simp [pySplit]
  | cons c rest =>
    simp only [pySplit]
    split
    · simp
    · split <;> simp

theorem pySplit_no_sep (sep : Char) : ∀ l : List Char,
    l.contains sep = false → pySplit sep l = [l] := by
  intro l
  induction l with
  | nil => intro _; rfl
  | cons c rest ih =>
    intro h
    simp only [List.contains_cons, Bool.or_eq_false_iff, beq_eq_false_iff_ne] at h
    simp only [pySplit, if_neg (Ne.symm h.1), ih h.2]

theorem parseLine_err (meta : Metadata) (line : List Char)
    (hbad : line.contains tabChar = false ∨
      pyIntOfChars ((pySplit tabChar line).headD []) = none) :
    ∃ e, Metadata.parseLine meta line = Except.error e := by
  rcases hbad with hnotab | hnoint
  · rw [Metadata.parseLine, pySplit_no_sep tabChar line hnotab]
    cases hint : pyIntOfChars line
    · exact ⟨PyError.valueError, by simp [hint]⟩
    · exact ⟨PyError.indexError, by simp [hint]⟩
  · obtain ⟨f0, rest, hsplit⟩ :=
      List.exists_cons_of_ne_nil (pySplit_ne_nil tabChar line)
    rw [hsplit] at hnoint
    simp only [List.headD_cons] at hnoint
    rw [Metadata.parseLine, hsplit]
    exact ⟨PyError.valueError, by simp [hnoint]⟩

theorem fromLines_err : ∀ (lines : List (List Char)) (meta : Metadata),
    (∃ line ∈ lines, line.contains tabChar = false ∨
      pyIntOfChars ((pySplit tabChar line).headD []) = none) →
    ∃ e, Metadata.fromLines meta lines = Except.error e := by
  intro lines
  induction lines with
  | nil => intro meta h; simp at h
  | cons l rest ih =>
    intro meta h
    rcases h with ⟨line, hmem, hbad⟩
    rcases List.mem_cons.mp hmem with rfl | htail
    · obtain ⟨e, he⟩ := parseLine_err meta line hbad
      exact ⟨e, by simp [Metadata.fromLines, he]⟩
    · cases hpl : Metadata.parseLine meta l with
      | error e => exact ⟨e, by simp [Metadata.fromLines, hpl]⟩
      | ok meta' =>
        obtain ⟨e, he⟩ := ih meta' ⟨line, htail, hbad⟩
        exact ⟨e, by simp [Metadata.fromLines, hpl, he]⟩

/-- Claim C10 (confirmed).  If any line of the metadata file lacks a tab
separator, or its first tab-separated field is not parseable as a decimal
integer, `Metadata.from_file` raises and the whole load fails — no individual
line is skipped; the lenient "start empty" behaviour lives only in the caller
`initialize`, which catches the exception and substitutes `Metadata()`. -/
theorem c10_from_file_strict (content : String)
    (h : ∃ line ∈ pyLines content, line.contains tabChar = false ∨
      pyIntOfChars ((pySplit tabChar line).headD []) = none) :
    (∃ e, Metadata.from_file content = Except.error e) ∧
    CanonicalizationTask.initLoad (Except.ok content) = Metadata.empty := by
  obtain ⟨e, he⟩ := fromLines_err (pyLines content) Metadata.empty h
  refine ⟨⟨e, he⟩, ?_⟩
  have hff : Metadata.from_file content = Except.error e := he
  simp [CanonicalizationTask.initLoad, hff]

/-- Witness for C10: the single-line file `"nope\n"` has no tab. -/
theorem c10_from_file_strict_witness :
    (∃ line ∈ pyLines "nope\n", line.contains tabChar = false ∨
      pyIntOfChars ((pySplit tabChar line).headD []) = none) ∧
    ((∃ e, Metadata.from_file "nope\n" = Except.error e) ∧
      CanonicalizationTask.initLoad (Except.ok "nope\n") = Metadata.empty) :=
  ⟨by decide, c10_from_file_strict "nope\n" (by decide)⟩

/-! ### The map stage

`eventlog.parse_json_event` and `eventlog.get_event_time_string` live in
`edx.analytics.tasks.util.eventlog`, which is not among the included sources.
Modelled from the spec: the former parses one raw line into a structured
record or fails (`parsed : Option ...`), the latter derives the canonical
ISO-8601 timestamp of that record or fails (`event_time : Option String`,
with the empty string also treated as "no timestamp" because the source tests
truthiness).  `compute_hash` (an md5 hex digest) is abstracted as the input
`line_hash`, `cjson.decode` as the fallible `cjson_decode`, and
`os.environ['map_input_file']` as the input `map_input_file`.  `cjson.encode`
of the finished record is modelled as the record itself. -/

/-- Structured (JSON-like) values: strings, integers, nested mappings. -/
inductive Val where
  | vstr : String → Val
  | vint : Int → Val
  | vmap : List (String × Val) → Val

def CanonicalizationTask.VERSION : String := "1"

/-- `time.split("T")[0]`: the characters before the first `'T'`. -/
def pyHeadSplit (s : String) (sep : Char) : String :=
  ⟨s.data.takeWhile (fun c => c != sep)⟩

/-- The event construction performed by the mapper after the batch id lookup
succeeded, starting from the event with `time` and `date` already handled
(`event2`) and its metadata dict `md0`:
`metadata.setdefault('version', ...)`, `metadata['last_modified'] = ...`,
the `id` hash fallback, `original_file`, `batch_id`, the `context` default,
and the string-payload decode of `event['event']` with empty-dict fallback. -/
def buildCanonicalEvent (event2 md0 : List (String × Val))
    (current_time line_hash map_input_file : String) (batch_id : Int)
    (cjson_decode : String → Option Val) : List (String × Val) :=
  let event3 := dsetdefault event2 "metadata" (Val.vmap [])
  let md1 := dsetdefault md0 "version" (Val.vstr CanonicalizationTask.VERSION)
  let md2 := dinsert md1 "last_modified" (Val.vstr current_time)
  let md3 := if (dget md2 "id").isNone then dinsert md2 "id" (Val.vstr line_hash) else md2
  let md4 := dinsert md3 "original_file" (Val.vstr map_input_file)
  let md5 := dinsert md4 "batch_id" (Val.vint batch_id)
  let event4 := dinsert event3 "metadata" (Val.vmap md5)
  let event5 := dsetdefault event4 "context" (Val.vmap [])
  match dget event5 "event" with
  | some (Val.vstr s) =>
    if s = "" then event5
    else
      match cjson_decode s with
      | some v => dinsert event5 "event" v
      | none => dinsert event5 "event" (Val.vmap [])
  | _ => event5

/-- `CanonicalizationTask.mapper(line)`.  Returns `ok none` for a silently
discarded line, `ok (some ((date_string, batch_id), record))` for an emission,
and `error _` when the Python code raises (non-dict `metadata` field, or the
`get_batch_id` lookup).  `event.setdefault('date', date_string)` keeps any
pre-existing `date` value; the emission key always uses the derived
`date_string`. -/
def CanonicalizationTask.mapper (st : TaskState) (map_input_file : String)
    (parsed : Option (List (String × Val))) (event_time : Option String)
    (line_hash : String) (cjson_decode : String → Option Val) :
    Except PyError (Option ((String × Int) × List (String × Val))) :=
  match parsed with
  | none => Except.ok none
  | some event =>
    if (dget event "event_type").isNone then Except.ok none
    else
      match event_time with
      | none => Except.ok none
      | some standardized_time =>
        if standardized_time = "" then Except.ok none
        else
          let event1 := dinsert event "time" (Val.vstr standardized_time)
          let date_string := pyHeadSplit standardized_time 'T'
          let event2 := dsetdefault event1 "date" (Val.vstr date_string)
          match (dget event2 "metadata").getD (Val.vmap []) with
          | Val.vmap md0 =>
            match CanonicalizationTask.get_batch_id st map_input_file with
            | Except.error e => Except.error e
            | Except.ok batch_id =>
              Except.ok (some ((date_string, batch_id),
                buildCanonicalEvent event2 md0 st.current_time line_hash map_input_file
                  batch_id cjson_decode))
          | _ => Except.error PyError.attributeError

/-! ### Claim C2: the mapper's batch id lookup -/

/-- Claim C2 (code bug), general form.  Whatever state `initialize` produces,
`self.path_to_batch` was never assigned — `initialize` stores the assignment
only in `self.metadata`, and no method of the source ever sets
`path_to_batch` (the `Metadata.get_batch_id_for_url` accessor is never
called) — so `get_batch_id` raises `AttributeError` for every path instead of
returning the batch id the planner assigned. -/
theorem c2_get_batch_id_attribute_bug (current_time : String) (meta : Metadata)
    (enumerated : List String) (files_per_batch : Int) (st : TaskState)
    (hinit : CanonicalizationTask.taskInit current_time meta enumerated files_per_batch =
      Except.ok st) (p : String) :
    st.path_to_batch = none ∧
    CanonicalizationTask.get_batch_id st p = Except.error PyError.attributeError := by
  simp only [CanonicalizationTask.taskInit] at hinit
  cases hplan : planLoop (meta.max_batch_id + 1) files_per_batch meta []
      (pySorted (CanonicalizationTask.get_requirements meta enumerated)) with
  | error e => rw [hplan] at hinit; simp at hinit
  | ok pr =>
    obtain ⟨meta', reqs⟩ := pr
    rw [hplan] at hinit
    simp only [Except.ok.injEq] at hinit
    subst hinit
    exact ⟨rfl, rfl⟩

/-- Witness for C2 at the failing input: a fresh run over the single file
`"f"`, which the planner registers under batch id 1, yet `get_batch_id "f"`
raises; the mapper therefore errors on every line read from `"f"` instead of
emitting a record carrying batch id 1. -/
theorem c2_get_batch_id_attribute_bug_witness :
    CanonicalizationTask.taskInit "T" Metadata.empty ["f"] 10000 =
      Except.ok ⟨⟨[("f", 1)], 1⟩, ["f"], "T", none⟩ ∧
    dget (⟨[("f", 1)], 1⟩ : Metadata).url_to_batch_id "f" = some 1 ∧
    ((⟨⟨[("f", 1)], 1⟩, ["f"], "T", none⟩ : TaskState).path_to_batch = none ∧
      CanonicalizationTask.get_batch_id ⟨⟨[("f", 1)], 1⟩, ["f"], "T", none⟩ "f" =
        Except.error PyError.attributeError) ∧
    CanonicalizationTask.mapper ⟨⟨[("f", 1)], 1⟩, ["f"], "T", none⟩ "f"
      (some [("event_type", Val.vstr "p")]) (some "2023-01-01T00:00:00") "h"
      (fun _ => none) = Except.error PyError.attributeError :=
  ⟨rfl, rfl,
   c2_get_batch_id_attribute_bug "T" Metadata.empty ["f"] 10000 _ rfl "f",
   rfl⟩

/-! ### Claim C7: date field versus emission key -/

theorem dget_buildCanonicalEvent_ne (event2 md0 : List (String × Val))
    (current_time line_hash map_input_file : String) (batch_id : Int)
    (cjson_decode : String → Option Val) (k : String)
    (h1 : k ≠ "metadata") (h2 : k ≠ "context") (h3 : k ≠ "event") :
    dget (buildCanonicalEvent event2 md0 current_time line_hash map_input_file batch_id
      cjson_decode) k = dget event2 k := by
  simp only [buildCanonicalEvent]
  split
  · split
    · rw [dget_dsetdefault_ne _ _ _ _ h2, dget_dinsert_ne _ _ _ _ h1,
        dget_dsetdefault_ne _ _ _ _ h1]
    · split
      · rw [dget_dinsert_ne _ _ _ _ h3, dget_dsetdefault_ne _ _ _ _ h2,
          dget_dinsert_ne _ _ _ _ h1, dget_dsetdefault_ne _ _ _ _ h1]
      · rw [dget_dinsert_ne _ _ _ _ h3, dget_dsetdefault_ne _ _ _ _ h2,
          dget_dinsert_ne _ _ _ _ h1, dget_dsetdefault_ne _ _ _ _ h1]
  · rw [dget_dsetdefault_ne _ _ _ _ h2, dget_dinsert_ne _ _ _ _ h1,
      dget_dsetdefault_ne _ _ _ _ h1]

/-- Claim C7 as amended.  For every line the mapper successfully emits, the
date component of the emission key equals the date portion (before `'T'`) of
the normalized timestamp, which is also stored as the record's `time` field;
and the record's `date` field equals that same value whenever the parsed
input record carried no pre-existing `date` field.  (A pre-existing `date` is
kept by `setdefault` and may differ — see the counterexample.) -/
theorem c7_amended (st : TaskState) (map_input_file : String)
    (parsed : Option (List (String × Val))) (event_time : Option String)
    (line_hash : String) (cjson_decode : String → Option Val)
    (d : String) (b : Int) (ev : List (String × Val))
    (hemit : CanonicalizationTask.mapper st map_input_file parsed event_time line_hash
      cjson_decode = Except.ok (some ((d, b), ev))) :
    ∃ e t, parsed = some e ∧ event_time = some t ∧
      d = pyHeadSplit t 'T' ∧
      dget ev "time" = some (Val.vstr t) ∧
      (dget e "date" = none → dget ev "date" = some (Val.vstr d)) := by
  cases parsed with
  | none => simp [CanonicalizationTask.mapper] at hemit
  | some e =>
    simp only [CanonicalizationTask.mapper] at hemit
    split at hemit
    · simp at hemit
    · split at hemit
      · simp at hemit
      · rename_i t
        split at hemit
        · simp at hemit
        · split at hemit
          · rename_i md0 hmd
            split at hemit
            · simp at hemit
            · rename_i batch_id hb
              simp only [Except.ok.injEq, Option.some.injEq, Prod.mk.injEq] at hemit
              obtain ⟨⟨hd, hbid⟩, hev⟩ := hemit
              refine ⟨e, t, rfl, rfl, hd.symm, ?_, ?_⟩
              · rw [← hev]
                rw [dget_buildCanonicalEvent_ne _ _ _ _ _ _ _ _ (by decide) (by decide)
                  (by decide)]
                rw [dget_dsetdefault_ne _ _ _ _ (by decide)]
                exact dget_dinsert_self _ _ _
              · intro hnone
                rw [← hev]
                rw [dget_buildCanonicalEvent_ne _ _ _ _ _ _ _ _ (by decide) (by decide)
                  (by decide)]
                have h1 : dget (dinsert e "time" (Val.vstr t)) "date" = none := by
                  rw [dget_dinsert_ne _ _ _ _ (by decide)]
                  exact hnone
                rw [dget_dsetdefault_none _ _ _ h1, ← hd]
          · simp at hemit

/-- Claim C7 counterexample.  A parsed record that already carries
`date = "1999-12-31"` while its normalized timestamp is
`2023-01-01T00:00:00`: the mapper emits it keyed by `"2023-01-01"`, but
`setdefault` keeps the pre-existing `date` field, which therefore differs
from the date portion of the `time` field, refuting the claim. -/
theorem c7_counterexample :
    CanonicalizationTask.mapper ⟨Metadata.empty, ["f"], "T0", some [("f", 7)]⟩ "f"
      (some [("event_type", Val.vstr "p"), ("date", Val.vstr "1999-12-31")])
      (some "2023-01-01T00:00:00") "h" (fun _ => none) =
    Except.ok (some (("2023-01-01", 7),
      [("event_type", Val.vstr "p"), ("date", Val.vstr "1999-12-31"),
       ("time", Val.vstr "2023-01-01T00:00:00"),
       ("metadata", Val.vmap [("version", Val.vstr "1"), ("last_modified", Val.vstr "T0"),
         ("id", Val.vstr "h"), ("original_file", Val.vstr "f"), ("batch_id", Val.vint 7)]),
       ("context", Val.vmap [])])) ∧
    dget [("event_type", Val.vstr "p"), ("date", Val.vstr "1999-12-31"),
       ("time", Val.vstr "2023-01-01T00:00:00"),
       ("metadata", Val.vmap [("version", Val.vstr "1"), ("last_modified", Val.vstr "T0"),
         ("id", Val.vstr "h"), ("original_file", Val.vstr "f"), ("batch_id", Val.vint 7)]),
       ("context", Val.vmap [])] "date" = some (Val.vstr "1999-12-31") ∧
    pyHeadSplit "2023-01-01T00:00:00" 'T' = "2023-01-01" ∧
    Val.vstr "1999-12-31" ≠ Val.vstr "2023-01-01" :=
  ⟨rfl, rfl, rfl, by intro h; injection h with h2; exact absurd h2 (by decide)⟩

/-- Witness for C7's amended claim: a record with no pre-existing `date`. -/
theorem c7_amended_witness :
    CanonicalizationTask.mapper ⟨Metadata.empty, ["f"], "T0", some [("f", 7)]⟩ "f"
      (some [("event_type", Val.vstr "p")]) (some "2023-01-01T00:00:00") "h"
      (fun _ => none) =
    Except.ok (some (("2023-01-01", 7),
      [("event_type", Val.vstr "p"), ("time", Val.vstr "2023-01-01T00:00:00"),
       ("date", Val.vstr "2023-01-01"),
       ("metadata", Val.vmap [("version", Val.vstr "1"), ("last_modified", Val.vstr "T0"),
         ("id", Val.vstr "h"), ("original_file", Val.vstr "f"), ("batch_id", Val.vint 7)]),
       ("context", Val.vmap [])])) ∧
    (∃ e t, (some [("event_type", Val.vstr "p")] : Option (List (String × Val))) = some e ∧
      (some "2023-01-01T00:00:00" : Option String) = some t ∧
      "2023-01-01" = pyHeadSplit t 'T' ∧
      dget [("event_type", Val.vstr "p"), ("time", Val.vstr "2023-01-01T00:00:00"),
        ("date", Val.vstr "2023-01-01"),
        ("metadata", Val.vmap [("version", Val.vstr "1"), ("last_modified", Val.vstr "T0"),
          ("id", Val.vstr "h"), ("original_file", Val.vstr "f"), ("batch_id", Val.vint 7)]),
        ("context", Val.vmap [])] "time" = some (Val.vstr t) ∧
      (dget e "date" = none →
        dget [("event_type", Val.vstr "p"), ("time", Val.vstr "2023-01-01T00:00:00"),
          ("date", Val.vstr "2023-01-01"),
          ("metadata", Val.vmap [("version", Val.vstr "1"), ("last_modified", Val.vstr "T0"),
            ("id", Val.vstr "h"), ("original_file", Val.vstr "f"), ("batch_id", Val.vint 7)]),
          ("context", Val.vmap [])] "date" = some (Val.vstr "2023-01-01"))) :=
  ⟨rfl,
   c7_amended ⟨Metadata.empty, ["f"], "T0", some [("f", 7)]⟩ "f"
     (some [("event_type", Val.vstr "p")]) (some "2023-01-01T00:00:00") "h"
     (fun _ => none) "2023-01-01" 7
     [("event_type", Val.vstr "p"), ("time", Val.vstr "2023-01-01T00:00:00"),
      ("date", Val.vstr "2023-01-01"),
      ("metadata", Val.vmap [("version", Val.vstr "1"), ("last_modified", Val.vstr "T0"),
        ("id", Val.vstr "h"), ("original_file", Val.vstr "f"), ("batch_id", Val.vint 7)]),
      ("context", Val.vmap [])] rfl⟩

/-! ### Claim C6: the source enumerators

`boto`, `luigi.hdfs` and `os.walk` are external: each enumerator receives the
backend's listing as a value.  For s3 the listing carries key names and sizes
(as `bucket.list` does); for hdfs and the local filesystem the listing is the
set of files with their sizes, of which the code consults only the names. -/

structure S3Key where
  key : String
  size : Nat
  deriving DecidableEq, Repr

structure LocalFile where
  directory : String
  filename : String
  size : Nat
  deriving DecidableEq, Repr

/-- Modelled from the spec: `url_path_join` (from `edx.analytics.tasks.url`,
not among the included sources) joins url components with a slash. -/
def url_path_join (a b : String) : String := a ++ "/" ++ b

/-- `key_metadata.key[len(root):].lstrip('/')`. -/
def s3KeyPath (root : String) (k : S3Key) : String :=
  ⟨(k.key.data.drop root.length).dropWhile (fun c => c == '/')⟩

/-- `os.path.join(directory_path, filename)` for the cases `os.walk`
produces. -/
def os_path_join (a b : String) : String :=
  match b.data with
  | '/' :: _ => b
  | _ =>
    match a.data.getLast? with
    | none => b
    | some '/' => a ++ b
    | some _ => a ++ "/" ++ b

/-- `CanonicalizationTask._get_s3_urls`: only keys with `size > 0` are
yielded. -/
def CanonicalizationTask.getS3Urls (source root : String) (listing : List S3Key) :
    List String :=
  listing.filterMap (fun k =>
    if k.size > 0 then some (url_path_join source (s3KeyPath root k)) else none)

/-- `CanonicalizationTask._get_hdfs_urls`: yields every path that
`luigi.hdfs.listdir` returns — no size filter. -/
def CanonicalizationTask.getHdfsUrls (listing : List (String × Nat)) : List String :=
  listing.map Prod.fst

/-- `CanonicalizationTask._get_local_urls`: yields `os.path.join(dir, name)`
for every file `os.walk` reports — no size filter. -/
def CanonicalizationTask.getLocalUrls (files : List LocalFile) : List String :=
  files.map (fun f => os_path_join f.directory f.filename)

/-- Claim C6 counterexample.  A local source containing a single zero-byte
file: the local enumerator yields its path anyway, refuting "for every
backend ... no path whose file has size zero". -/
theorem c6_counterexample :
    CanonicalizationTask.getLocalUrls [⟨"/data", "empty.log", 0⟩] = ["/data/empty.log"] ∧
    (⟨"/data", "empty.log", 0⟩ : LocalFile).size = 0 :=
  ⟨rfl, rfl⟩

/-- Claim C6 as amended.  Only the object-storage (s3) enumerator excludes
zero-byte files: every url it yields comes from a listed key of positive
size; the hdfs and local enumerators yield every listed file regardless of
size. -/
theorem c6_amended (source root : String) (listing : List S3Key)
    (files : List LocalFile) (hdfsListing : List (String × Nat)) :
    (∀ u ∈ CanonicalizationTask.getS3Urls source root listing,
      ∃ k ∈ listing, 0 < k.size ∧ u = url_path_join source (s3KeyPath root k)) ∧
    (∀ f ∈ files,
      os_path_join f.directory f.filename ∈ CanonicalizationTask.getLocalUrls files) ∧
    (∀ p ∈ hdfsListing, p.1 ∈ CanonicalizationTask.getHdfsUrls hdfsListing) := by
  refine ⟨?_, ?_, ?_⟩
  · intro u hu
    simp only [CanonicalizationTask.getS3Urls, List.mem_filterMap] at hu
    obtain ⟨k, hk, hcond⟩ := hu
    split at hcond
    · rename_i hsz
      exact ⟨k, hk, hsz, (Option.some.inj hcond).symm⟩
    · simp at hcond
  · intro f hf
    exact List.mem_map_of_mem _ hf
  · intro p hp
    exact List.mem_map_of_mem _ hp

/-- Witness for C6's amended claim at concrete listings for all three
backends. -/
theorem c6_amended_witness :
    "s3://b/k" ∈ CanonicalizationTask.getS3Urls "s3://b" "r" [⟨"rk", 5⟩] ∧
    (∃ k ∈ ([⟨"rk", 5⟩] : List S3Key), 0 < k.size ∧
      "s3://b/k" = url_path_join "s3://b" (s3KeyPath "r" k)) ∧
    "/d/f" ∈ CanonicalizationTask.getLocalUrls [⟨"/d", "f", 3⟩] ∧
    "h" ∈ CanonicalizationTask.getHdfsUrls [("h", 9)] :=
  ⟨by decide,
   (c6_amended "s3://b" "r" [⟨"rk", 5⟩] [⟨"/d", "f", 3⟩] [("h", 9)]).1 "s3://b/k" (by decide),
   (c6_amended "s3://b" "r" [⟨"rk", 5⟩] [⟨"/d", "f", 3⟩] [("h", 9)]).2.1 ⟨"/d", "f", 3⟩
     (by decide),
   (c6_amended "s3://b" "r" [⟨"rk", 5⟩] [⟨"/d", "f", 3⟩] [("h", 9)]).2.2 ("h", 9) (by decide)⟩
